import Mathlib

set_option maxRecDepth 8000

/- Shallow embedding of the mal-2-crunchyroll synchronizer (src/main.rs).

   Modelling conventions:
   - Rust strings are modelled as `List Char` (the character sequence the
     `levenshtein` crate iterates over).  The byte-level view needed for the
     slice `&s[..n]` is modelled separately as `List Nat` (one Nat per byte).
   - `DateTime<Utc>` values and the parsed MAL start date are modelled as
     `Int` timestamps in nanoseconds; `chrono::TimeDelta::days(2*30)` is the
     constant `maxDateDifference` below.
   - Remote calls are modelled by embedding their (deterministic) results in
     the data: a `Series` carries the `Except` result of its `seasons()` call,
     a `Season` the result of its `episodes()` call, and the whole catalog is
     a function from query title to the optional first search result.
     `Except.error` models a transport error (`anyhow::Error` behind `?`).
   - `main`'s per-entry loop is `processEntry`/`runEntries`; a `?` in the Rust
     source corresponds to propagating `Except.error`, which exits the whole
     loop, exactly as `?` inside `main` does.
   - Mark calls are recorded as the list of content ids passed to
     `MarkAsWatch::mark`; the driver discards each call's outcome
     (`Ok(()) => (), Err(e) => dbg!`), which is modelled by the unused
     `markOk` oracle parameter. -/

/-- One cell step of the Levenshtein row update: `diag`, `up` and `left` are
the three neighbouring cells of the dynamic-programming matrix. -/
def levRowGo {α : Type} [DecidableEq α] (x : α) : List α → List Nat → Nat → Nat → List Nat
  | [], _, _, _ => []
  | _ :: _, [], _, _ => []
  | b :: bs, up :: prest, diag, left =>
    let cell := min (diag + (if x = b then 0 else 1)) (min (up + 1) (left + 1))
    cell :: levRowGo x bs prest up cell

/-- One full row update of the Levenshtein matrix for the next character `x`
of the first sequence. -/
def levRow {α : Type} [DecidableEq α] (x : α) (t : List α) (prev : List Nat) : List Nat :=
  match prev with
  | [] => []
  | p0 :: rest => (p0 + 1) :: levRowGo x t rest p0 (p0 + 1)

/-- Edit distance between two sequences, as computed by the `levenshtein`
crate that `same_title` calls: the classic single-row dynamic program, with
`d[i][j]` the distance between the length-`i` front of `s` and the
length-`j` front of `t`, row 0 being `0, 1, ..., |t|` and the answer the
last cell of the last row. -/
def levenshteinDist {α : Type} [DecidableEq α] (s t : List α) : Nat :=
  (s.foldl (fun row x => levRow x t row) (List.range (t.length + 1))).getLastD 0

/-- `same_title` from src/main.rs (lines 84-108).  `p` is the candidate
(series) title and `s` the query title, both already lowercased by the
caller.  The source computes `score = levenshteinDist(p, &s[..n]) as f32 / n as
f32` and accepts iff `score <= 0.125`; the exact rational comparison
`8 * d <= n` is equivalent (the nearest f32 to d/n is on the same side of
0.125 = 1/8 for every realistic title length, and d/n = 1/8 is computed
exactly).  The warning printed for scores in [0.01, 0.125] has no semantic
effect and is not modelled. -/
def same_title (p s : List Char) : Bool :=
  let n := p.length
  if s.length < n ∨ n = 0 then false
  else decide (8 * levenshteinDist p (s.take n) ≤ n)

/-- Rust's `str::to_lowercase`, restricted to the ASCII range where it agrees
with `Char.toLower` character by character. -/
def toLowercase (s : List Char) : List Char := s.map Char.toLower

/-- The `en` component of MAL's `alternative_titles` (only field consulted). -/
structure AlternativeTitles where
  en : Option (List Char)
deriving DecidableEq

/-- MAL anime node: canonical title, optional alternative titles, optional
air start date.  `start_date` is modelled as the already-parsed UTC
timestamp produced by `parse_date` + `Utc.from_local_datetime` (src lines
250-259); the string parsing itself is not needed by any claim. -/
structure AnimeNode where
  title : List Char
  alternative_titles : Option AlternativeTitles
  start_date : Option Int
deriving DecidableEq

/-- MAL list status (only the watched count is consulted). -/
structure ListStatus where
  num_episodes_watched : Nat
deriving DecidableEq

/-- One element of the MAL list response. -/
structure AnimeListNode where
  node : AnimeNode
  list_status : Option ListStatus
deriving DecidableEq

/-- `get_node_title` from src/main.rs (lines 10-20): prefer the English
alternative title when non-empty, else the canonical title. -/
def get_node_title (node : AnimeNode) : List Char :=
  match node.alternative_titles with
  | some x =>
    match x.en with
    | some y => if 0 < y.length then y else node.title
    | none => node.title
  | none => node.title

/-- Page size used by `read_mal_entries` (src line 30). -/
def max_page_size : Nat := 1000

/-- The ingest filter closure of `read_mal_entries` (src lines 58-69):
drop entries without a list status and entries with zero watched count. -/
def keepEntry (elt : AnimeListNode) : Bool :=
  match elt.list_status with
  | none => false
  | some status => status.num_episodes_watched != 0

/-- The pagination loop of `read_mal_entries` (src lines 34-75), as a
function of the sequence of remote page results.  A remote error terminates
pagination keeping the partial list; a page shorter than `max_page_size`
is the last one; otherwise the filtered page is accumulated and the loop
continues.  (The model also stops if the finite response trace runs out.) -/
def read_mal_entries_loop : List (Except Unit (List AnimeListNode)) → List AnimeListNode
  | [] => []
  | page :: rest =>
    match page with
    | .error _ => []
    | .ok data =>
      if data.length = max_page_size then
        data.filter keepEntry ++ read_mal_entries_loop rest
      else
        data.filter keepEntry

/-- `read_mal_entries` (src lines 22-82): accumulate the filtered pages and
reverse the result before returning (src line 80). -/
def read_mal_entries (pages : List (Except Unit (List AnimeListNode))) : List AnimeListNode :=
  (read_mal_entries_loop pages).reverse

/-- Outcome of one `MarkAsWatch::mark` call: number of token refreshes,
number of HTTP requests issued, and whether the call returned `Ok`. -/
structure MarkOutcome where
  refreshes : Nat
  attempts : Nat
  success : Bool
deriving DecidableEq

/-- `reqwest::Response::error_for_status` fails exactly on client and server
error statuses, i.e. 400..=599. -/
def isHttpError (status : Nat) : Bool := decide (400 ≤ status ∧ status ≤ 599)

/-- `MarkAsWatch::mark` (src lines 159-172) as a function of the HTTP status
`s1` of the first response and the status `s2` the retried request would
receive: on 401 the token is refreshed once and the request retried once,
then `error_for_status` decides success; on any other first status there is
no refresh and no retry. -/
def mark (s1 s2 : Nat) : MarkOutcome :=
  if s1 = 401 then ⟨1, 2, !(isHttpError s2)⟩
  else ⟨0, 1, !(isHttpError s1)⟩

/-- Crunchyroll episode: id, optional episode number, air date. -/
structure Episode where
  id : List Char
  episode_number : Option Nat
  episode_air_date : Int
deriving DecidableEq

/-- Crunchyroll season: id, title, total episode count, and the
(deterministic) result of its `episodes()` remote call. -/
structure Season where
  id : List Char
  title : List Char
  number_of_episodes : Nat
  episodes : Except Unit (List Episode)

/-- Crunchyroll series: title and the result of its `seasons()` call. -/
structure Series where
  title : List Char
  seasons : Except Unit (List Season)

/-- `chrono::TimeDelta::days(2*30)` (src line 246) in nanoseconds. -/
def maxDateDifference : Int := 5184000000000000

/-- Result of the episode date walk inside the season loop. -/
inductive EpWalk
  | accept
  | abandon
  | exhausted
deriving DecidableEq

/-- The episode walk of the season selection (src lines 285-294): accept the
season on the first episode airing strictly within `maxDateDifference` of
`date`; abandon the whole series on the first episode airing at or after
`date + maxDateDifference`; otherwise keep walking. -/
def episodeDateWalk (date : Int) : List Episode → EpWalk
  | [] => .exhausted
  | e :: rest =>
    if |e.episode_air_date - date| < maxDateDifference then .accept
    else if date + maxDateDifference ≤ e.episode_air_date then .abandon
    else episodeDateWalk date rest

/-- Verdict of the per-season test in the season loop. -/
inductive SeasonDecision
  | accept
  | reject
  | abandonSeries
deriving DecidableEq

/-- Errors that escape `main`'s per-entry processing: a transport error
behind a `?`, or the `status.unwrap()` panic (src line 262) on an entry
without list status. -/
inductive RunError
  | transport
  | missingStatus
deriving DecidableEq

/-- The season test of the season loop (src lines 281-302): a season whose
lowercased title equals the query title is accepted without consulting
dates; otherwise, with an air start date, the episode walk decides; without
one the season is rejected (after a logged warning). -/
def checkSeason (title : List Char) (airStartDate : Option Int) (s : Season) :
    Except RunError SeasonDecision :=
  if toLowercase s.title ≠ title then
    match airStartDate with
    | some date =>
      match s.episodes with
      | .error _ => .error .transport
      | .ok eps =>
        match episodeDateWalk date eps with
        | .accept => .ok .accept
        | .abandon => .ok .abandonSeries
        | .exhausted => .ok .reject
    | none => .ok .reject
  else .ok .accept

/-- A line on the standard output stream: the unresolved-title report
(src line 336) or the episode-0 diagnostic (src line 319). -/
inductive OutLine
  | unresolved : List Char → OutLine
  | ep0 : List Char → OutLine
deriving DecidableEq

/-- The per-episode marking loop (src lines 312-327): episodes numbered
above the watched count are skipped silently, episodes numbered zero are
skipped with a stdout diagnostic, all remaining episodes (including those
with no number) get a mark call.  Returns (mark call ids, stdout lines). -/
def markEpisodes (watched : Nat) (seasonTitle : List Char) :
    List Episode → List (List Char) × List OutLine
  | [] => ([], [])
  | e :: rest =>
    let r := markEpisodes watched seasonTitle rest
    match e.episode_number with
    | some n =>
      if watched < n then r
      else if n = 0 then (r.1, OutLine.ep0 seasonTitle :: r.2)
      else (e.id :: r.1, r.2)
    | none => (e.id :: r.1, r.2)

/-- Marking of an accepted season (src lines 306-328): if the watched count
equals the season's total episode count, a single season-level mark call;
otherwise the per-episode loop (which issues another `episodes()` call). -/
def marksForSeason (watched : Nat) (s : Season) :
    Except RunError (List (List Char) × List OutLine) :=
  if watched = s.number_of_episodes then .ok ([s.id], [])
  else
    match s.episodes with
    | .error _ => .error .transport
    | .ok eps => .ok (markEpisodes watched s.title eps)

/-- `HashSet::insert` on the treated set, modelled on a duplicate-free list. -/
def insertTreated (t : List Char) (treated : List (List Char)) : List (List Char) :=
  if t ∈ treated then treated else t :: treated

/-- The `'SEASON` loop of `main` (src lines 276-331): skip seasons whose id
is already treated, stop the walk on an abandon verdict, and on the first
accepted season issue its mark calls, insert the season's TITLE (not its
id — this is what line 329 does) into the treated set and stop.  Returns
(mark call ids, stdout lines, new treated set, accepted season if any). -/
def seasonWalk (title : List Char) (airStartDate : Option Int) (watched : Nat)
    (treated : List (List Char)) :
    List Season →
      Except RunError (List (List Char) × List OutLine × List (List Char) × Option Season)
  | [] => .ok ([], [], treated, none)
  | s :: rest =>
    if s.id ∈ treated then seasonWalk title airStartDate watched treated rest
    else
      match checkSeason title airStartDate s with
      | .error e => .error e
      | .ok .abandonSeries => .ok ([], [], treated, none)
      | .ok .reject => seasonWalk title airStartDate watched treated rest
      | .ok .accept =>
        match marksForSeason watched s with
        | .error e => .error e
        | .ok (ms, ds) => .ok (ms, ds, insertTreated s.title treated, some s)

/-- The search/series part of one iteration of `main`'s entry loop (src
lines 269-333), before the final unresolved report: ask the catalog for the
first search result, run `same_title`, list the seasons, and run the season
walk.  The `markOk` oracle gives the outcome of each mark call; the driver
discards it (src lines 307-310 and 323-326), so it is never consulted. -/
def processEntryCore (catalog : List Char → Option (Except Unit Series))
    (markOk : List Char → Bool) (treated : List (List Char)) (title : List Char)
    (airStartDate : Option Int) (watched : Nat) :
    Except RunError (List (List Char) × List OutLine × List (List Char) × Option Season) :=
  match catalog title with
  | none => .ok ([], [], treated, none)
  | some (.error _) => .error .transport
  | some (.ok series) =>
    if same_title (toLowercase series.title) title then
      match series.seasons with
      | .error _ => .error .transport
      | .ok seasons => seasonWalk title airStartDate watched treated seasons
    else .ok ([], [], treated, none)

/-- Result of processing one tracker entry. -/
structure EntryResult where
  marks : List (List Char)
  stdout : List OutLine
  treated : List (List Char)
  accepted : Option Season

/-- One iteration of `main`'s entry loop (src lines 248-338): unwrap the
list status (a panic on `none`, modelled as `RunError.missingStatus`),
compute the lowercased query title, run the core, and print the query title
on stdout when no season was accepted (`if !found`, src lines 335-337). -/
def processEntry (catalog : List Char → Option (Except Unit Series))
    (markOk : List Char → Bool) (treated : List (List Char)) (elt : AnimeListNode) :
    Except RunError EntryResult :=
  match elt.list_status with
  | none => .error .missingStatus
  | some status =>
    match processEntryCore catalog markOk treated (toLowercase (get_node_title elt.node))
        elt.node.start_date status.num_episodes_watched with
    | .error e => .error e
    | .ok (ms, outs, tr, acc) =>
      .ok ⟨ms,
        if acc.isSome then outs
        else outs ++ [OutLine.unresolved (toLowercase (get_node_title elt.node))],
        tr, acc⟩

/-- `main`'s entry loop over the whole list: entries are processed in order;
an `Except.error` from one entry propagates (it is a `?` inside `main`) and
ends the run.  Returns (all mark call ids, all stdout lines, final treated
set). -/
def runEntries (catalog : List Char → Option (Except Unit Series))
    (markOk : List Char → Bool) :
    List (List Char) → List AnimeListNode →
      Except RunError (List (List Char) × List OutLine × List (List Char))
  | treated, [] => .ok ([], [], treated)
  | treated, elt :: rest =>
    match processEntry catalog markOk treated elt with
    | .error e => .error e
    | .ok r =>
      match runEntries catalog markOk r.treated rest with
      | .error e => .error e
      | .ok (ms, os, tr) => .ok (r.marks ++ ms, r.stdout ++ os, tr)

/-- Spec-side eligibility of an episode for an individual mark call: a
defined, non-zero number in [1, watched], or no number at all. -/
def eligibleEpisode (watched : Nat) (e : Episode) : Bool :=
  match e.episode_number with
  | some n => decide (1 ≤ n ∧ n ≤ watched)
  | none => true

/-- A UTF-8 continuation byte (10xxxxxx). -/
def isUtf8Cont (b : Nat) : Bool := decide (128 ≤ b ∧ b < 192)

/-- Rust's `str::is_char_boundary` on the byte sequence of a string:
position 0 and the end are boundaries, positions past the end are not, and
an interior position is a boundary iff its byte is not a continuation
byte. -/
def isCharBoundary (s : List Nat) (i : Nat) : Bool :=
  if i = 0 then true
  else if i = s.length then true
  else
    match s.get? i with
    | none => false
    | some b => !isUtf8Cont b

/-- UTF-8 decoding of a byte sequence into code points (what `str::chars`
iterates).  The inputs of interest are valid UTF-8, so the behaviour on
malformed sequences is irrelevant to every claim. -/
def utf8Decode : List Nat → List Nat
  | [] => []
  | b :: rest =>
    if b < 128 then b :: utf8Decode rest
    else if b < 224 then
      match rest with
      | [] => []
      | b1 :: r => ((b % 32) * 64 + b1 % 64) :: utf8Decode r
    else if b < 240 then
      match rest with
      | b1 :: b2 :: r => ((b % 16) * 4096 + (b1 % 64) * 64 + b2 % 64) :: utf8Decode r
      | _ => []
    else
      match rest with
      | b1 :: b2 :: b3 :: r =>
        ((b % 8) * 262144 + (b1 % 64) * 4096 + (b2 % 64) * 64 + b3 % 64) :: utf8Decode r
      | _ => []

/-- Byte-level view of `same_title`: `n` is the BYTE length of the candidate
`p`, and the slice `&s[..n]` panics (modelled as `none`) when `n` is not a
character boundary of `s`; the guard `s.len() < n || n == 0` returns before
the slice is taken.  The edit distance is over decoded characters while the
divisor `n` stays the byte length, exactly as in the source. -/
def same_title_bytes (p s : List Nat) : Option Bool :=
  let n := p.length
  if s.length < n ∨ n = 0 then some false
  else if isCharBoundary s n then
    some (decide (8 * levenshteinDist (utf8Decode p) (utf8Decode (s.take n)) ≤ n))
  else none

/- Concrete data used by counterexamples and witnesses. -/

/-- Episode 1 of the single-season series used in concrete runs. -/
def episodeC1 : Episode := ⟨['e'], some 1, 0⟩

/-- A season whose id ['s'] differs from its title ['a']. -/
def seasonC1 : Season := ⟨['s'], ['a'], 1, .ok [episodeC1]⟩

/-- Series titled ['a'] with the single season above. -/
def seriesC1 : Series := ⟨['a'], .ok [seasonC1]⟩

/-- Catalog answering query ['a'] with `seriesC1`. -/
def catalogC1 : List Char → Option (Except Unit Series) :=
  fun t => if t = ['a'] then some (.ok seriesC1) else none

/-- Tracker entry titled ['a'], watched 1, air start 0. -/
def entryA : AnimeListNode := ⟨⟨['a'], none, some 0⟩, some ⟨1⟩⟩

/-- The result of processing `entryA` against `catalogC1`. -/
def resultA : EntryResult := ⟨[['s']], [], [['a']], some seasonC1⟩

/-- Series titled ['b'] whose `seasons()` call fails with a transport
error. -/
def seriesNoSeasons : Series := ⟨['b'], .error ()⟩

/-- Catalog answering query ['b'] with the series whose season listing
fails. -/
def catalogC5 : List Char → Option (Except Unit Series) :=
  fun t => if t = ['b'] then some (.ok seriesNoSeasons) else none

/-- Tracker entry titled ['b'], watched 1, air start 0. -/
def entryB : AnimeListNode := ⟨⟨['b'], none, some 0⟩, some ⟨1⟩⟩

/-- A season with a differing title whose only episode airs exactly
`maxDateDifference` after the query date 0. -/
def seasonC3 : Season := ⟨['i'], ['x'], 1, .ok [⟨['e'], none, maxDateDifference⟩]⟩

/-- A season equal in (lowercased) title to the query ['m'] whose
`episodes()` call would fail: accepted without consulting it. -/
def seasonC3w : Season := ⟨['k'], ['m'], 3, .error ()⟩

/-- Episodes numbered 1, 2, 3, 0 and one unnumbered episode. -/
def epsC4 : List Episode :=
  [⟨['p'], some 1, 0⟩, ⟨['q'], some 2, 0⟩, ⟨['r'], some 3, 0⟩,
   ⟨['z'], some 0, 0⟩, ⟨['u'], none, 0⟩]

/-- Season with 12 episodes total and the episode list above. -/
def seasonC4 : Season := ⟨['t'], ['w'], 12, .ok epsC4⟩

/-- Entry with air start date 0, watched 1. -/
def entryD0 : AnimeListNode := ⟨⟨['a'], none, some 0⟩, some ⟨1⟩⟩

/-- Entry with air start date 1, watched 1. -/
def entryD1 : AnimeListNode := ⟨⟨['b'], none, some 1⟩, some ⟨1⟩⟩

/- Helper lemmas. -/

/-- The exact-rational form of the 0.125 threshold. -/
theorem ratio_le_iff (L n : Nat) (h : 0 < n) :
    ((L : ℚ) / (n : ℚ) ≤ 0.125) ↔ 8 * L ≤ n := by
  have hn : (0 : ℚ) < (n : ℚ) := by exact_mod_cast h
  rw [div_le_iff hn]
  constructor
  · intro h2
    have h4 : ((8 * L : ℕ) : ℚ) ≤ (n : ℚ) := by push_cast; nlinarith
    exact_mod_cast h4
  · intro h2
    have h4 : ((8 * L : ℕ) : ℚ) ≤ (n : ℚ) := by exact_mod_cast h2
    push_cast at h4
    nlinarith

/-- The per-episode marking loop issues a mark call exactly for the eligible
episodes and a diagnostic exactly for the episodes numbered zero. -/
theorem markEpisodes_eq (w : Nat) (t : List Char) (eps : List Episode) :
    markEpisodes w t eps =
      ((eps.filter (eligibleEpisode w)).map (fun e => e.id),
       (eps.filter (fun e => decide (e.episode_number = some 0))).map
         (fun _ => OutLine.ep0 t)) := by
  induction eps with
  | nil => rfl
  | cons e rest ih =>
    unfold markEpisodes
    rw [ih]
    cases hn : e.episode_number with
    | none =>
      simp [List.filter_cons, eligibleEpisode, hn]
    | some n =>
      by_cases h1 : w < n
      · have he : eligibleEpisode w e = false := by
          simp [eligibleEpisode, hn]; omega
        have hz : ¬ (e.episode_number = some 0) := by
          rw [hn]; intro hc; injection hc with hc2; omega
        simp [List.filter_cons, he, hz, h1]
      · by_cases h2 : n = 0
        · subst h2
          have he : eligibleEpisode w e = false := by
            simp [eligibleEpisode, hn]
          have hz : e.episode_number = some 0 := hn
          simp [List.filter_cons, he, hz, hn]
        · have he : eligibleEpisode w e = true := by
            simp [eligibleEpisode, hn]; omega
          have hz : ¬ (e.episode_number = some 0) := by
            rw [hn]; intro hc; injection hc with hc2; exact h2 hc2
          simp [List.filter_cons, he, hz, hn, h1, h2]

/-- An entry kept by the ingest filter has a present status and a non-zero
watched count. -/
theorem keepEntry_sound (e : AnimeListNode) (h : keepEntry e = true) :
    ∃ st, e.list_status = some st ∧ 1 ≤ st.num_episodes_watched := by
  unfold keepEntry at h
  cases hs : e.list_status with
  | none => rw [hs] at h; cases h
  | some st =>
    rw [hs] at h
    refine ⟨st, rfl, ?_⟩
    have : st.num_episodes_watched ≠ 0 := by simpa using h
    omega

/-- Membership in the accumulated pagination output implies surviving the
ingest filter. -/
theorem read_loop_keep (pages : List (Except Unit (List AnimeListNode)))
    (e : AnimeListNode) (h : e ∈ read_mal_entries_loop pages) : keepEntry e = true := by
  induction pages with
  | nil => simp [read_mal_entries_loop] at h
  | cons p rest ih =>
    cases p with
    | error u => simp [read_mal_entries_loop] at h
    | ok data =>
      rw [read_mal_entries_loop] at h
      by_cases hl : data.length = max_page_size
      · rw [if_pos hl] at h
        rcases List.mem_append.mp h with h2 | h2
        · exact (List.mem_filter.mp h2).2
        · exact ih h2
      · rw [if_neg hl] at h
        exact (List.mem_filter.mp h).2

/-- Prefix-split characterization of the episode walk accepting a season:
some episode airs strictly within the window and every earlier episode
neither airs within the window nor at/after its upper end. -/
theorem episodeDateWalk_accept_iff (date : Int) (eps : List Episode) :
    episodeDateWalk date eps = .accept ↔
      ∃ pre e post, eps = pre ++ e :: post ∧
        (∀ x ∈ pre, ¬ (|x.episode_air_date - date| < maxDateDifference) ∧
          ¬ (date + maxDateDifference ≤ x.episode_air_date)) ∧
        |e.episode_air_date - date| < maxDateDifference := by
  induction eps with
  | nil =>
    constructor
    · intro h; exact absurd h (by simp [episodeDateWalk])
    · rintro ⟨pre, e, post, heq, -, -⟩
      exact absurd heq (by cases pre <;> simp)
  | cons a tl ih =>
    by_cases h1 : |a.episode_air_date - date| < maxDateDifference
    · have hw : episodeDateWalk date (a :: tl) = .accept := by
        unfold episodeDateWalk; rw [if_pos h1]
      rw [hw]
      constructor
      · intro _; exact ⟨[], a, tl, by simp, by simp, h1⟩
      · intro _; rfl
    · by_cases h2 : date + maxDateDifference ≤ a.episode_air_date
      · have hw : episodeDateWalk date (a :: tl) = .abandon := by
          unfold episodeDateWalk; rw [if_neg h1, if_pos h2]
        constructor
        · intro h; rw [hw] at h; cases h
        · rintro ⟨pre, e, post, heq, hpre, hnear⟩
          cases pre with
          | nil =>
            have h3 : a = e ∧ tl = post := by simpa using heq
            exact absurd (h3.1 ▸ hnear) h1
          | cons b pre2 =>
            have h3 : a = b := by
              have := heq
              simp at this
              exact this.1
            have h4 := hpre b (by simp)
            exact absurd h2 (h3 ▸ h4.2)
      · have hw : episodeDateWalk date (a :: tl) = episodeDateWalk date tl := by
          conv_lhs => rw [episodeDateWalk]
          rw [if_neg h1, if_neg h2]
        rw [hw, ih]
        constructor
        · rintro ⟨pre, e, post, heq, hpre, hnear⟩
          refine ⟨a :: pre, e, post, by rw [heq]; rfl, ?_, hnear⟩
          intro x hx
          rcases List.mem_cons.mp hx with rfl | hx2
          · exact ⟨h1, h2⟩
          · exact hpre x hx2
        · rintro ⟨pre, e, post, heq, hpre, hnear⟩
          cases pre with
          | nil =>
            have h3 : a = e ∧ tl = post := by simpa using heq
            exact absurd (h3.1 ▸ hnear) h1
          | cons b pre2 =>
            have h3 : a = b ∧ tl = pre2 ++ e :: post := by simpa using heq
            exact ⟨pre2, e, post, h3.2,
              fun x hx => hpre x (List.mem_cons_of_mem _ hx), hnear⟩

/-- Prefix-split characterization of the episode walk abandoning the series:
some episode airs at or after `date + maxDateDifference` (and not within the
window), and every earlier episode neither airs within the window nor
at/after its upper end. -/
theorem episodeDateWalk_abandon_iff (date : Int) (eps : List Episode) :
    episodeDateWalk date eps = .abandon ↔
      ∃ pre e post, eps = pre ++ e :: post ∧
        (∀ x ∈ pre, ¬ (|x.episode_air_date - date| < maxDateDifference) ∧
          ¬ (date + maxDateDifference ≤ x.episode_air_date)) ∧
        ¬ (|e.episode_air_date - date| < maxDateDifference) ∧
        date + maxDateDifference ≤ e.episode_air_date := by
  induction eps with
  | nil =>
    constructor
    · intro h; exact absurd h (by simp [episodeDateWalk])
    · rintro ⟨pre, e, post, heq, -, -⟩
      exact absurd heq (by cases pre <;> simp)
  | cons a tl ih =>
    by_cases h1 : |a.episode_air_date - date| < maxDateDifference
    · have hw : episodeDateWalk date (a :: tl) = .accept := by
        unfold episodeDateWalk; rw [if_pos h1]
      rw [hw]
      constructor
      · intro h; cases h
      · rintro ⟨pre, e, post, heq, hpre, hnear, hlate⟩
        cases pre with
        | nil =>
          have h3 : a = e ∧ tl = post := by simpa using heq
          exact absurd (h3.1 ▸ h1) hnear
        | cons b pre2 =>
          have h3 : a = b := by
            have := heq
            simp at this
            exact this.1
          have h4 := hpre b (by simp)
          exact absurd (h3 ▸ h1) h4.1
    · by_cases h2 : date + maxDateDifference ≤ a.episode_air_date
      · have hw : episodeDateWalk date (a :: tl) = .abandon := by
          unfold episodeDateWalk; rw [if_neg h1, if_pos h2]
        rw [hw]
        constructor
        · intro _; exact ⟨[], a, tl, by simp, by simp, h1, h2⟩
        · intro _; rfl
      · have hw : episodeDateWalk date (a :: tl) = episodeDateWalk date tl := by
          conv_lhs => rw [episodeDateWalk]
          rw [if_neg h1, if_neg h2]
        rw [hw, ih]
        constructor
        · rintro ⟨pre, e, post, heq, hpre, hnear, hlate⟩
          refine ⟨a :: pre, e, post, by rw [heq]; rfl, ?_, hnear, hlate⟩
          intro x hx
          rcases List.mem_cons.mp hx with rfl | hx2
          · exact ⟨h1, h2⟩
          · exact hpre x hx2
        · rintro ⟨pre, e, post, heq, hpre, hnear, hlate⟩
          cases pre with
          | nil =>
            have h3 : a = e ∧ tl = post := by simpa using heq
            exact absurd (h3.1 ▸ hlate) h2
          | cons b pre2 =>
            have h3 : a = b ∧ tl = pre2 ++ e :: post := by simpa using heq
            exact ⟨pre2, e, post, h3.2,
              fun x hx => hpre x (List.mem_cons_of_mem _ hx), hnear, hlate⟩

/-- Every stdout line produced by the season walk is an episode-0
diagnostic. -/
theorem seasonWalk_stdout (title : List Char) (airStartDate : Option Int) (w : Nat)
    (seasons : List Season) :
    ∀ treated ms outs tr acc,
      seasonWalk title airStartDate w treated seasons = .ok (ms, outs, tr, acc) →
      ∀ l ∈ outs, ∃ t, l = OutLine.ep0 t := by
  induction seasons with
  | nil =>
    intro treated ms outs tr acc h l hl
    rw [seasonWalk] at h
    simp only [Except.ok.injEq, Prod.mk.injEq] at h
    obtain ⟨-, houts, -, -⟩ := h
    rw [← houts] at hl
    cases hl
  | cons s rest ih =>
    intro treated ms outs tr acc h l hl
    rw [seasonWalk] at h
    split at h
    · exact ih _ _ _ _ _ h l hl
    · split at h
      · cases h
      · simp only [Except.ok.injEq, Prod.mk.injEq] at h
        obtain ⟨-, houts, -, -⟩ := h
        rw [← houts] at hl
        cases hl
      · exact ih _ _ _ _ _ h l hl
      · rename_i hcs
        split at h
        · cases h
        · rename_i pms pds hm
          simp only [Except.ok.injEq, Prod.mk.injEq] at h
          obtain ⟨-, houts, -, -⟩ := h
          rw [← houts] at hl
          unfold marksForSeason at hm
          split at hm
          · simp only [Except.ok.injEq, Prod.mk.injEq] at hm
            rw [← hm.2] at hl
            cases hl
          · split at hm
            · cases hm
            · rename_i eps heps
              simp only [Except.ok.injEq] at hm
              have h3 : pds = (markEpisodes w s.title eps).2 := by rw [hm]
              rw [markEpisodes_eq] at h3
              rw [h3] at hl
              obtain ⟨x, -, hx⟩ := List.mem_map.mp hl
              exact ⟨s.title, hx.symm⟩

/-- Every stdout line produced by the pre-report part of an entry's
processing is an episode-0 diagnostic. -/
theorem processEntryCore_stdout (catalog : List Char → Option (Except Unit Series))
    (mk : List Char → Bool) (treated : List (List Char)) (title : List Char)
    (airStartDate : Option Int) (w : Nat) (ms : List (List Char)) (outs : List OutLine)
    (tr : List (List Char)) (acc : Option Season)
    (h : processEntryCore catalog mk treated title airStartDate w = .ok (ms, outs, tr, acc)) :
    ∀ l ∈ outs, ∃ t, l = OutLine.ep0 t := by
  intro l hl
  unfold processEntryCore at h
  split at h
  · simp only [Except.ok.injEq, Prod.mk.injEq] at h
    obtain ⟨-, houts, -, -⟩ := h
    rw [← houts] at hl
    cases hl
  · cases h
  · rename_i series
    split at h
    · split at h
      · cases h
      · rename_i seasons hs
        exact seasonWalk_stdout title airStartDate w seasons treated ms outs tr acc h l hl
    · simp only [Except.ok.injEq, Prod.mk.injEq] at h
      obtain ⟨-, houts, -, -⟩ := h
      rw [← houts] at hl
      cases hl

/- Claim theorems. -/

/-- C1: the claim says the driver inserts the accepted season's identifier
into TreatedSet so that a season receives at most one season-level mark call
per run.  The code instead inserts the season's TITLE (src line 329) while
the skip test reads the season's ID (src line 277), so two entries resolving
to the same season (id ['s'], title ['a']) produce two season-level mark
calls with the same identifier in one run. -/
theorem C1_duplicate_season_mark :
    runEntries catalogC1 (fun _ => true) [] [entryA, entryA] =
      .ok ([['s'], ['s']], [], [['a']]) ∧
    seasonC1.id = ['s'] ∧ seasonC1.title = ['a'] :=
  ⟨rfl, rfl, rfl⟩

/-- C2: series acceptance is exactly the near-prefix rule: `same_title c q`
accepts iff the candidate is non-empty, no longer than the query, and the
edit distance between the candidate and the equally long query prefix,
normalized by the candidate length, is at most 0.125; in particular query
"foo" against candidate "foobar" is rejected. -/
theorem C2_series_acceptance :
    (∀ q c : List Char,
      same_title c q = true ↔
        c.length ≤ q.length ∧ c ≠ [] ∧
          ((levenshteinDist c (q.take c.length) : ℚ) / (c.length : ℚ) ≤ 0.125)) ∧
    same_title ['f', 'o', 'o', 'b', 'a', 'r'] ['f', 'o', 'o'] = false := by
  constructor
  · intro q c
    by_cases h0 : c = []
    · subst h0
      constructor
      · intro h
        exact absurd h (by simp [same_title])
      · rintro ⟨-, hne, -⟩
        exact absurd rfl hne
    · have hn : 0 < c.length := List.length_pos.mpr h0
      by_cases h1 : q.length < c.length
      · constructor
        · intro h
          rw [same_title] at h
          rw [if_pos (Or.inl h1)] at h
          cases h
        · rintro ⟨hle, -, -⟩
          omega
      · push_neg at h1
        have hguard : ¬ (q.length < c.length ∨ c.length = 0) := by omega
        rw [show same_title c q =
            decide (8 * levenshteinDist c (q.take c.length) ≤ c.length) from by
          rw [same_title]; rw [if_neg hguard]]
        rw [decide_eq_true_eq, ratio_le_iff _ _ hn]
        constructor
        · intro ha
          exact ⟨h1, h0, ha⟩
        · rintro ⟨-, -, ha⟩
          exact ha
  · rfl

/-- C3 counterexample: the claim abandons the series only when an episode's
air date is strictly greater than `D + 60 days` (and, read inclusively,
accepts at exactly `D + 60 days`); the code tests `>=`, so with query date 0
and a single episode airing exactly `maxDateDifference` later the season
walk abandons the series at a date that is NOT strictly greater than the
bound. -/
theorem C3_boundary_refutation :
    checkSeason ['q'] (some 0) seasonC3 = .ok SeasonDecision.abandonSeries ∧
    seasonC3.episodes = .ok [⟨['e'], none, maxDateDifference⟩] ∧
    ¬ ((0 : Int) + maxDateDifference < maxDateDifference) :=
  ⟨rfl, rfl, by omega⟩

/-- C3 (amended): during season selection, a season whose lowercased title
equals the query title is accepted without consulting dates or episodes;
for a differing title with air start date `D`, walking the episodes in
order, the season is accepted as soon as an episode airs strictly within 60
days of `D`, and the entire series is abandoned as soon as an episode airs
at or after `D + 60 days` (the acceptance test being checked first). -/
theorem C3_season_selection :
    (∀ (title : List Char) (d : Option Int) (s : Season),
        toLowercase s.title = title → checkSeason title d s = .ok SeasonDecision.accept) ∧
    (∀ (date : Int) (eps : List Episode),
        episodeDateWalk date eps = .accept ↔
          ∃ pre e post, eps = pre ++ e :: post ∧
            (∀ x ∈ pre, ¬ (|x.episode_air_date - date| < maxDateDifference) ∧
              ¬ (date + maxDateDifference ≤ x.episode_air_date)) ∧
            |e.episode_air_date - date| < maxDateDifference) ∧
    (∀ (date : Int) (eps : List Episode),
        episodeDateWalk date eps = .abandon ↔
          ∃ pre e post, eps = pre ++ e :: post ∧
            (∀ x ∈ pre, ¬ (|x.episode_air_date - date| < maxDateDifference) ∧
              ¬ (date + maxDateDifference ≤ x.episode_air_date)) ∧
            ¬ (|e.episode_air_date - date| < maxDateDifference) ∧
            date + maxDateDifference ≤ e.episode_air_date) ∧
    (∀ (title : List Char) (date : Int) (s : Season) (eps : List Episode),
        toLowercase s.title ≠ title → s.episodes = .ok eps →
          (checkSeason title (some date) s = .ok SeasonDecision.accept ↔
            episodeDateWalk date eps = .accept) ∧
          (checkSeason title (some date) s = .ok SeasonDecision.abandonSeries ↔
            episodeDateWalk date eps = .abandon)) := by
  refine ⟨?_, episodeDateWalk_accept_iff, episodeDateWalk_abandon_iff, ?_⟩
  · intro title d s h
    unfold checkSeason
    rw [if_neg (by simp [h])]
  · intro title date s eps hne he
    unfold checkSeason
    rw [if_pos hne, he]
    cases hw : episodeDateWalk date eps <;> simp [hw]

/-- C3 witness: a season whose (lowercased) title equals the query is
accepted even though its `episodes()` call would fail — no date is
consulted. -/
theorem C3_witness : checkSeason ['m'] none seasonC3w = .ok SeasonDecision.accept :=
  C3_season_selection.1 ['m'] none seasonC3w (by rfl)

/-- C4: marking an accepted season issues exactly one season-level mark call
when the watched count equals the season's total episode count (without even
listing episodes), and otherwise one mark call per eligible episode — those
with a defined non-zero number in [1, watched] plus all unnumbered episodes
— with one stdout diagnostic per episode numbered zero; episodes numbered
above the watched count are skipped silently. -/
theorem C4_mark_selection :
    ∀ (watched : Nat) (s : Season) (eps : List Episode),
      (watched = s.number_of_episodes → marksForSeason watched s = .ok ([s.id], [])) ∧
      (watched ≠ s.number_of_episodes → s.episodes = .ok eps →
        marksForSeason watched s =
          .ok ((eps.filter (eligibleEpisode watched)).map (fun e => e.id),
               (eps.filter (fun e => decide (e.episode_number = some 0))).map
                 (fun _ => OutLine.ep0 s.title))) := by
  intro watched s eps
  constructor
  · intro h
    unfold marksForSeason
    rw [if_pos h]
  · intro h he
    unfold marksForSeason
    rw [if_neg h, he]
    simp only [markEpisodes_eq]

/-- C4 witness: watched 2 of 12, episodes numbered 1, 2, 3, 0 and one
unnumbered: episodes 1 and 2 and the unnumbered one get mark calls, the
episode numbered 0 produces the diagnostic, episode 3 is skipped. -/
theorem C4_witness :
    marksForSeason 2 seasonC4 = .ok ([['p'], ['q'], ['u']], [OutLine.ep0 ['w']]) :=
  Eq.trans ((C4_mark_selection 2 seasonC4 epsC4).2 (by decide) rfl) (by rfl)

/-- C5 counterexample: one entry whose `seasons()` call fails with a
transport error makes the whole run return the error — the second entry is
never processed, contradicting the claim that only the failing entry is
abandoned. -/
theorem C5_abort_refutation :
    runEntries catalogC5 (fun _ => true) [] [entryB, entryB] = .error RunError.transport :=
  rfl

/-- C5 (amended): a transport error on the search, seasons, or episodes call
of one entry aborts the ENTIRE run: the error propagates out of the entry
loop (`?` inside `main`) and no later entry is processed. -/
theorem C5_transport_error_aborts_run :
    ∀ (catalog : List Char → Option (Except Unit Series)) (mk : List Char → Bool)
      (treated : List (List Char)) (elt : AnimeListNode) (rest : List AnimeListNode)
      (err : RunError),
      processEntry catalog mk treated elt = .error err →
      runEntries catalog mk treated (elt :: rest) = .error err := by
  intro catalog mk treated elt rest err h
  rw [runEntries, h]

/-- C5 witness: the amended statement applied to the concrete failing entry. -/
theorem C5_witness : runEntries catalogC5 (fun _ => true) [] [entryB] = .error RunError.transport :=
  C5_transport_error_aborts_run catalogC5 (fun _ => true) [] entryB [] RunError.transport (by rfl)

/-- C6 counterexample: the claim says a mark call with a non-401 first
status succeeds iff that status is 2xx; the code only fails on 400..=599
(`error_for_status`), so a 304 first response succeeds although it is not
2xx. -/
theorem C6_not_2xx_refutation :
    (mark 304 200).success = true ∧ ¬ (200 ≤ 304 ∧ 304 < 300) :=
  ⟨rfl, by omega⟩

/-- C6 (amended): on a 401 first response the adapter refreshes once and
retries once, succeeding iff the retry's status is not in 400..=599; on any
other first status there is no refresh and no retry, and the call succeeds
iff that status is not in 400..=599. -/
theorem C6_mark_semantics :
    ∀ s1 s2 : Nat,
      (s1 = 401 →
        (mark s1 s2).refreshes = 1 ∧ (mark s1 s2).attempts = 2 ∧
          ((mark s1 s2).success = true ↔ ¬ (400 ≤ s2 ∧ s2 ≤ 599))) ∧
      (s1 ≠ 401 →
        (mark s1 s2).refreshes = 0 ∧ (mark s1 s2).attempts = 1 ∧
          ((mark s1 s2).success = true ↔ ¬ (400 ≤ s1 ∧ s1 ≤ 599))) := by
  intro s1 s2
  constructor
  · intro h
    subst h
    simp [mark, isHttpError]
    omega
  · intro h
    simp [mark, isHttpError, h]
    omega

/-- C6 witness: 401 then 200 refreshes once, retries once and succeeds;
a 304 first response is a single attempt. -/
theorem C6_witness :
    (mark 401 200).refreshes = 1 ∧ (mark 401 200).attempts = 2 ∧
      (mark 401 200).success = true ∧ (mark 304 0).attempts = 1 :=
  ⟨((C6_mark_semantics 401 200).1 rfl).1,
   ((C6_mark_semantics 401 200).1 rfl).2.1,
   (((C6_mark_semantics 401 200).1 rfl).2.2).mpr (by omega),
   ((C6_mark_semantics 304 0).2 (by omega)).2.1⟩

/-- C7 counterexample: if the remote pages really arrived sorted by air
start date ascending, as the claim states the adapter requests, then the
returned list — the REVERSE of the accumulation — is descending, not
ascending: dates [0, 1] come back as [1, 0]. -/
theorem C7_reversal_refutation :
    (read_mal_entries [Except.ok [entryD0, entryD1]]).map (fun e => e.node.start_date) =
      [some 1, some 0] ∧ ¬ ((1 : Int) ≤ 0) :=
  ⟨rfl, by omega⟩

/-- C7 (amended): `read_mal_entries` returns exactly the reverse of the
accumulated filtered pages, so its output is ordered by a relation precisely
when the accumulated remote order was the flipped relation (oldest-first
output requires a newest-first remote order). -/
theorem C7_reverse_of_accumulation :
    ∀ pages : List (Except Unit (List AnimeListNode)),
      read_mal_entries pages = (read_mal_entries_loop pages).reverse ∧
      ∀ R : AnimeListNode → AnimeListNode → Prop,
        (read_mal_entries_loop pages).Pairwise (fun a b => R b a) →
        (read_mal_entries pages).Pairwise R := by
  intro pages
  refine ⟨rfl, ?_⟩
  intro R h
  rw [read_mal_entries]
  exact List.pairwise_reverse.mpr h

/-- C7 witness: a newest-first remote page comes back oldest-first. -/
theorem C7_witness :
    (read_mal_entries [Except.ok [entryD1, entryD0]]).Pairwise
      (fun a b => a.node.start_date.getD 0 ≤ b.node.start_date.getD 0) :=
  (C7_reverse_of_accumulation [Except.ok [entryD1, entryD0]]).2 _ (by decide)

/-- C8: every entry returned by `read_mal_entries` has a present list status
and a watched count of at least 1 — entries lacking a status and entries
with zero watched count are dropped by the ingest filter, so the driver
(which consumes only this list) never issues a mark call for such an
entry. -/
theorem C8_ingest_invariant :
    ∀ (pages : List (Except Unit (List AnimeListNode))) (e : AnimeListNode),
      e ∈ read_mal_entries pages →
      ∃ st, e.list_status = some st ∧ 1 ≤ st.num_episodes_watched := by
  intro pages e he
  have h2 : e ∈ read_mal_entries_loop pages := by
    rw [read_mal_entries] at he
    exact List.mem_reverse.mp he
  exact keepEntry_sound e (read_loop_keep pages e h2)

/-- C8 witness: the invariant applied to a concrete surviving entry. -/
theorem C8_witness :
    ∃ st, entryD0.list_status = some st ∧ 1 ≤ st.num_episodes_watched :=
  C8_ingest_invariant [Except.ok [entryD0]] entryD0 (by decide)

/-- C9 counterexample: the claim says `same_title` panics whenever the byte
length of the candidate is not a character boundary of the query; but a
candidate LONGER than the query (5 is no boundary of a 3-byte query) is
rejected by the length guard before the slice is taken — no panic. -/
theorem C9_overlong_refutation :
    same_title_bytes [97, 97, 97, 97, 97] [97, 98, 99] = some false ∧
    isCharBoundary [97, 98, 99] 5 = false :=
  ⟨rfl, rfl⟩

/-- C9 (amended): `same_title` indexes the query by bytes: whenever the
candidate's byte length is positive, at most the query's byte length, and
not a UTF-8 character boundary of the query, taking the prefix slice panics;
and the function is total whenever both inputs are ASCII. -/
theorem C9_byte_slicing :
    (∀ p q : List Nat, 0 < p.length → p.length ≤ q.length →
        isCharBoundary q p.length = false → same_title_bytes p q = none) ∧
    (∀ p q : List Nat, (∀ b ∈ p, b < 128) → (∀ b ∈ q, b < 128) →
        (same_title_bytes p q).isSome = true) := by
  constructor
  · intro p q h0 hlen hb
    have hguard : ¬ (q.length < p.length ∨ p.length = 0) := by omega
    unfold same_title_bytes
    rw [if_neg hguard, hb]
    rfl
  · intro p q hp hq
    unfold same_title_bytes
    by_cases hg : q.length < p.length ∨ p.length = 0
    · rw [if_pos hg]
      rfl
    · rw [if_neg hg]
      push_neg at hg
      obtain ⟨hlen, hne⟩ := hg
      have hb : isCharBoundary q p.length = true := by
        unfold isCharBoundary
        rw [if_neg hne]
        by_cases he : p.length = q.length
        · rw [if_pos he]
        · rw [if_neg he]
          have hlt : p.length < q.length := by omega
          obtain ⟨b, hgb⟩ : ∃ b, q.get? p.length = some b := by
            rw [List.get?_eq_get hlt]
            exact ⟨_, rfl⟩
          rw [hgb]
          have hmem : b ∈ q := List.get?_mem hgb
          have hbc : isUtf8Cont b = false := by
            have := hq b hmem
            unfold isUtf8Cont
            simp
            omega
          show (!isUtf8Cont b) = true
          rw [hbc]
          rfl
      rw [hb]
      rfl

/-- C9 witness: slicing a 2-byte character at byte 1 panics; ASCII inputs
are total. -/
theorem C9_witness :
    same_title_bytes [97] [195, 169] = none ∧
      (same_title_bytes [97] [97, 98]).isSome = true :=
  ⟨C9_byte_slicing.1 [97] [195, 169] (by decide) (by decide) (by decide),
   C9_byte_slicing.2 [97] [97, 98] (by decide) (by decide)⟩

/-- C10: when an entry's processing completes, the query title is printed on
standard output exactly when no season was accepted — rejections,
short-circuits and already-treated seasons all leave the report in place,
while an accepted season suppresses it; and since the driver discards the
outcome of every mark call, the result is identical under any mark
outcome oracle (in particular when every mark call fails). -/
theorem C10_unresolved_report :
    ∀ (catalog : List Char → Option (Except Unit Series)) (mk mk2 : List Char → Bool)
      (treated : List (List Char)) (elt : AnimeListNode) (r : EntryResult),
      processEntry catalog mk treated elt = .ok r →
      ((OutLine.unresolved (toLowercase (get_node_title elt.node)) ∈ r.stdout ↔
          r.accepted = none) ∧
        processEntry catalog mk2 treated elt = .ok r) := by
  intro catalog mk mk2 treated elt r h
  refine ⟨?_, h⟩
  unfold processEntry at h
  split at h
  · cases h
  · split at h
    · cases h
    · rename_i ms outs tr acc hcore
      injection h with h2
      subst h2
      cases acc with
      | some s =>
        constructor
        · intro hmem
          have hmem2 : OutLine.unresolved (toLowercase (get_node_title elt.node)) ∈ outs := hmem
          obtain ⟨t, ht⟩ := processEntryCore_stdout _ _ _ _ _ _ _ _ _ _ hcore _ hmem2
          cases ht
        · intro hc
          simp at hc
      | none =>
        constructor
        · intro _
          rfl
        · intro _
          exact (List.mem_append_right outs (by simp) :
            OutLine.unresolved (toLowercase (get_node_title elt.node)) ∈
              outs ++ [OutLine.unresolved (toLowercase (get_node_title elt.node))])

/-- C10 witness: processing `entryA` accepts a season, so the unresolved
line is absent, independently of mark outcomes. -/
theorem C10_witness :
    ((OutLine.unresolved (toLowercase (get_node_title entryA.node)) ∈ resultA.stdout ↔
        resultA.accepted = none) ∧
      processEntry catalogC1 (fun _ => false) [] entryA = .ok resultA) :=
  C10_unresolved_report catalogC1 (fun _ => true) (fun _ => false) [] entryA resultA (by rfl)
